import Mathlib

/-!
Reverse-forwarding gateway: dispatch and forwarding decisions.

A shallow embedding of `main.go`: the handler chain registered in `main`
(`ForwardMid`, then the catch-all route), `HandleConnect`, `ForwardMid`,
`copyHeader` and `Reverse` with the `ErrorHandler` and `Director` closures it
installs on the reverse proxy.

Network effects (`http.DefaultTransport.RoundTrip`, `net.DialTimeout`) and
`gin.Context.ClientIP` are results supplied by a `World`; every use of one is
appended to a trace kept in the context, so that "this step never ran" is a
statement about the trace.
-/

namespace Gateway

/-! ## `http.Header`: a map from key to value list -/

/-- Go's `http.Header` (`map[string][]string`) as an association list; a key is
looked up at its first entry. The order of the entries plays the part of the
(unspecified) iteration order of a Go map. -/
abbrev Header := List (String × List String)

/-- Map index with presence, `v, ok := h[k]`. -/
def Header.get? : Header → String → Option (List String)
  | [], _ => none
  | (k', vv) :: t, k => if k' = k then some vv else Header.get? t k

/-- Map index `h[k]`: the value list, empty (nil) when the key is absent. -/
def Header.values (h : Header) (k : String) : List String :=
  (h.get? k).getD []

/-- Map assignment `h[k] = vv`. -/
def Header.put : Header → String → List String → Header
  | [], k, vv => [(k, vv)]
  | (k', vv') :: t, k, vv =>
    if k' = k then (k, vv) :: t else (k', vv') :: Header.put t k vv

/-- The bytes `net/textproto` accepts in a header field name (RFC 7230 token
characters). -/
def validHeaderFieldByte (c : Char) : Bool :=
  c.isAlphanum ||
    [33, 35, 36, 37, 38, 39, 42, 43, 45, 46, 94, 95, 96, 124, 126].contains c.toNat

/-- The case-folding loop of `textproto.CanonicalMIMEHeaderKey`: upper case for
the first letter and for a letter after a dash, lower case elsewhere. -/
def canonicalBytes : Bool → List Char → List Char
  | _, [] => []
  | upper, c :: t =>
    let c' := if upper then c.toUpper else c.toLower
    c' :: canonicalBytes (c' == '-') t

/-- Go's `textproto.CanonicalMIMEHeaderKey`: a key holding a byte that is not a
token character is returned unchanged, any other key is case-folded. -/
def CanonicalMIMEHeaderKey (s : String) : String :=
  if s.data.all validHeaderFieldByte then String.mk (canonicalBytes true s.data) else s

/-- Go's `Header.Add`: append a value under the canonical form of the key. -/
def Header.Add (h : Header) (key value : String) : Header :=
  let key := CanonicalMIMEHeaderKey key
  h.put key (h.values key ++ [value])

/-- Go's `Header.Set`: replace the value list under the canonical form of the
key by the single value. -/
def Header.Set (h : Header) (key value : String) : Header :=
  h.put (CanonicalMIMEHeaderKey key) [value]

/-- The function `copyHeader` of `main.go`: for every entry of `src` and every value of the
entry, in order, `dst.Add(k, v)`. -/
def copyHeader (dst src : Header) : Header :=
  src.foldl (fun d kv => kv.2.foldl (fun d v => d.Add kv.1 v) d) dst

/-- Go's `strings.Contains` on the characters of the two strings. -/
def containsChars : List Char → List Char → Bool
  | [], sub => sub.isEmpty
  | c :: t, sub => sub.isPrefixOf (c :: t) || containsChars t sub

/-- Go's `strings.Contains(s, substr)`. -/
def stringsContains (s substr : String) : Bool :=
  containsChars s.data substr.data

/-! ## Requests, responses and the outside world -/

/-- The fields of `url.URL` the program reads or writes. -/
structure URL where
  Scheme : String
  Host : String
  Path : String
  RawQuery : String
  deriving DecidableEq

/-- The fields of `http.Request` the program reads or writes. -/
structure Request where
  Method : String
  URL : URL
  Header : Header
  Host : String
  Body : String
  deriving DecidableEq

/-- The fields of `http.Response` the program reads. -/
structure Response where
  StatusCode : Nat
  Header : Header
  Body : String
  deriving DecidableEq

/-- What the program asks of its surroundings: the result of a round trip on
`http.DefaultTransport` (also the transport of the reverse proxy, which sets
none of its own), the result of `net.DialTimeout("tcp", addr, 5s)`, and
`gin.Context.ClientIP`, which under `gin.Default()` depends on the peer address
and on the `X-Forwarded-For` and `X-Real-Ip` headers of the request. A failure
carries the text of the Go error. -/
structure World where
  RoundTrip : Request → Except String Response
  DialTimeout : String → Except String Unit
  ClientIP : Request → String

/-- The network and framework calls a request can cause. -/
inductive Event where
  | roundTrip (req : Request)
  | handleConnect (targetHost : String)
  | dial (addr : String)
  | director (out : Request)
  | relay (out : Request)
  deriving DecidableEq

/-- The event is the reachability probe. -/
def Event.isDial : Event → Bool
  | .dial _ => true
  | _ => false

/-- The event is a run of the proxy's `Director`. -/
def Event.isDirector : Event → Bool
  | .director _ => true
  | _ => false

/-- The event is the reverse proxy sending the outbound request. -/
def Event.isRelay : Event → Bool
  | .relay _ => true
  | _ => false

/-- The event is a run of `HandleConnect`. -/
def Event.isHandleConnect : Event → Bool
  | .handleConnect _ => true
  | _ => false

/-- The event is the direct round trip of `ForwardMid`. -/
def Event.isRoundTrip : Event → Bool
  | .roundTrip _ => true
  | _ => false

/-- The response writer of gin: the header map, the status (200 until set), whether
the status line has gone out, and the body written so far. The headers that
`c.String` and `http.Error` set on their own (content type) are not tracked. -/
structure ResponseWriter where
  header : Header
  status : Nat
  written : Bool
  body : String
  deriving DecidableEq

/-- The method `WriteHeader` of gin's response writer: the status changes only while nothing has
been written. -/
def ResponseWriter.WriteHeader (w : ResponseWriter) (code : Nat) : ResponseWriter :=
  if 0 < code ∧ w.status ≠ code then
    if w.written then w else { w with status := code }
  else w

/-- The method `Write` of gin's response writer: the status line goes out, then the data. -/
def ResponseWriter.Write (w : ResponseWriter) (data : String) : ResponseWriter :=
  { w with written := true, body := w.body ++ data }

/-- Go's `http.Error(w, msg, code)`: the status, then the message and a line end. -/
def httpError (w : ResponseWriter) (msg : String) (code : Nat) : ResponseWriter :=
  (w.WriteHeader code).Write (msg ++ "\n")

/-- Go's `http.StatusBadRequest`. -/
def StatusBadRequest : Nat := 400
/-- Go's `http.StatusMethodNotAllowed`. -/
def StatusMethodNotAllowed : Nat := 405
/-- Go's `http.StatusInternalServerError`. -/
def StatusInternalServerError : Nat := 500
/-- Go's `http.StatusBadGateway`. -/
def StatusBadGateway : Nat := 502
/-- Go's `http.StatusServiceUnavailable`. -/
def StatusServiceUnavailable : Nat := 503
/-- Go's `http.StatusGatewayTimeout`. -/
def StatusGatewayTimeout : Nat := 504

/-! ## The gin context and its handler chain -/

/-- Why a run of the chain did not return: a Go run-time panic on a slice index,
or the fuel of the model running out. -/
inductive Fault where
  | indexOutOfRange
  | outOfFuel
  deriving DecidableEq

/-- The state of `gin.Context` the program touches, with the trace of events. -/
structure Context where
  Request : Request
  Writer : ResponseWriter
  index : Int
  trace : List Event
  deriving DecidableEq

/-- The constant `abortIndex` of gin (`math.MaxInt8 >> 1`). -/
def abortIndex : Int := 63

/-- The method `Context.Abort` of gin: no handler after the current one runs. -/
def Context.Abort (c : Context) : Context :=
  { c with index := abortIndex }

/-- The method `Context.IsAborted` of gin. -/
def Context.IsAborted (c : Context) : Bool :=
  decide (abortIndex ≤ c.index)

/-- The method `Context.String(code, body)` of gin: the status, then the text. -/
def Context.String (c : Context) (code : Nat) (body : String) : Context :=
  { c with Writer := (c.Writer.WriteHeader code).Write body }

/-- Append an event to the trace. -/
def Context.log (c : Context) (e : Event) : Context :=
  { c with trace := c.trace ++ [e] }

/-- A handler of the chain; its first argument is what `c.Next()` does when the
handler calls it. -/
abbrev HandlerFunc := (Context → Except Fault Context) → Context → Except Fault Context

/-- Go's `io.Copy(w, body)`: an empty body causes no call of `Write`. -/
def ioCopy (w : ResponseWriter) (body : String) : ResponseWriter :=
  if body = "" then w else w.Write body

/-! ## The handlers of `main.go` -/

/-- The function `HandleConnect` of `main.go`: the target host is the request's
`Host`, or the URL's host when that is empty; status 400 when both are empty,
status 405 otherwise. -/
def HandleConnect (c : Context) : Context :=
  let targetHost := c.Request.Host
  let targetHost := if targetHost = "" then c.Request.URL.Host else targetHost
  let c := c.log (.handleConnect targetHost)
  if targetHost = "" then
    c.String StatusBadRequest "Bad Request: No target host specified"
  else
    c.String StatusMethodNotAllowed "CONNECT method not allowed"

/-- The function `ForwardMid` of `main.go`. When the header map has the key
`Forward`, the first value is indexed without a length check (`v[0]`, a panic
on an empty list); when that value is `ok`, one round trip of the request as
received, the response (or status 503 and the error text) written, and the
chain aborted. In every other case `c.Next()`. -/
def ForwardMid (w : World) : HandlerFunc := fun next c =>
  match c.Request.Header.get? "Forward" with
  | some v =>
    match v with
    | [] => .error .indexOutOfRange
    | v0 :: _ =>
      if v0 = "ok" then
        let c := c.log (.roundTrip c.Request)
        match w.RoundTrip c.Request with
        | .error err =>
          .ok ({ c with Writer := httpError c.Writer err StatusServiceUnavailable }).Abort
        | .ok resp =>
          let wr := { c.Writer with header := copyHeader c.Writer.header resp.Header }
          let wr := wr.WriteHeader resp.StatusCode
          let wr := ioCopy wr resp.Body
          .ok ({ c with Writer := wr }).Abort
      else next c
  | none => next c

/-- The result of `url.Parse("https://bdtunnel.com:2096")` in `Reverse`; the
parse of this constant does not fail, so the branch on its error is never
taken. -/
def remote : URL :=
  { Scheme := "https", Host := "bdtunnel.com:2096", Path := "", RawQuery := "" }

/-- The closure `proxy.ErrorHandler` of `Reverse`, on the text of the error. -/
def ErrorHandler (w : ResponseWriter) (err : String) : ResponseWriter :=
  if stringsContains err "connection refused" then
    httpError w "Target server connection refused" StatusBadGateway
  else if stringsContains err "timeout" then
    httpError w "Target server timeout" StatusGatewayTimeout
  else
    httpError w ("Proxy error: " ++ err) StatusBadGateway

/-- The closure `proxy.Director` of `Reverse`, applied to the outbound request
`req` for the inbound context `c`. The header map assigned to `req` is the
inbound one (the same Go map); `c.ClientIP()` is evaluated before the first
`Set` changes it. -/
def Director (w : World) (c : Context) (req : Request) : Request :=
  let req := { req with Header := c.Request.Header }
  let req := { req with Host := remote.Host }
  let req := { req with URL := { req.URL with Host := remote.Host } }
  let req := { req with URL := { req.URL with Scheme := remote.Scheme } }
  let req :=
    if c.Request.URL.Path = "/" ∨ c.Request.URL.Path = "" then
      { req with URL := { req.URL with Path := "/sub/imzami", RawQuery := "format=json" } }
    else
      { req with URL := { req.URL with Path := c.Request.URL.Path,
                                       RawQuery := c.Request.URL.RawQuery } }
  let req := { req with Header := req.Header.Set "X-Forwarded-For" (w.ClientIP c.Request) }
  let req := { req with Header := req.Header.Set "X-Forwarded-Proto" "https" }
  let req := { req with Header := req.Header.Set "X-Forwarded-Host" c.Request.Host }
  req

/-- The call `proxy.ServeHTTP(c.Writer, c.Request)` as `Reverse` configures the
proxy: the outbound request starts as a clone of the inbound one, the
`Director` rewrites it, the transport sends it, and the response is copied to
the writer, or the `ErrorHandler` runs on a failure. The header map of the
inbound request is the one the `Director` changed. The `director` and `relay`
events both record the request as the `Director` leaves it: what
`httputil.ReverseProxy` does to the headers between the `Director` and the
transport (the peer address joined onto `X-Forwarded-For`, `User-Agent`, the
hop-by-hop headers removed from request and response) is not part of the
model; it changes neither the URL, the host, nor the order of probe and
relay. -/
def proxyServeHTTP (w : World) (c : Context) : Context :=
  let out := Director w c c.Request
  let c := { c with Request := { c.Request with Header := out.Header } }
  let c := c.log (.director out)
  let c := c.log (.relay out)
  match w.RoundTrip out with
  | .error err => { c with Writer := ErrorHandler c.Writer err }
  | .ok res =>
    let wr := { c.Writer with header := copyHeader c.Writer.header res.Header }
    let wr := wr.WriteHeader res.StatusCode
    { c with Writer := ioCopy wr res.Body }

/-- The function `Reverse` of `main.go`: the reachability probe on the host of
`remote`; status 502 and a fixed text when it fails, the reverse proxy
otherwise. -/
def Reverse (w : World) (c : Context) : Context :=
  let c := c.log (.dial remote.Host)
  match w.DialTimeout remote.Host with
  | .error _ => c.String StatusBadGateway "Target server is currently unavailable"
  | .ok _ => proxyServeHTTP w c

/-- The catch-all route of `main`: `HandleConnect` for the method `CONNECT`,
`Reverse` for every other method. -/
def proxyPath (w : World) : HandlerFunc := fun _ c =>
  if c.Request.Method = "CONNECT" then .ok (HandleConnect c) else .ok (Reverse w c)

/-- The handler chain `main` registers: `r.Use(ForwardMid)`, then the route. -/
def handlers (w : World) : List HandlerFunc :=
  [ForwardMid w, proxyPath w]

/-- The loop of gin's `Context.Next`: while the index is inside the chain, run the
handler at the index, then step the index. A handler's own `c.Next()` steps
the index and runs the loop with one unit of fuel less. -/
def runHandlers (w : World) : Nat → Context → Except Fault Context
  | fuel, c =>
    if 0 ≤ c.index ∧ c.index < (handlers w).length then
      match fuel with
      | 0 => .error .outOfFuel
      | n + 1 =>
        match (handlers w)[c.index.toNat]? with
        | none => .error .indexOutOfRange
        | some h =>
          match h (fun c' => runHandlers w n { c' with index := c'.index + 1 }) c with
          | .error e => .error e
          | .ok c1 => runHandlers w n { c1 with index := c1.index + 1 }
    else .ok c

/-- The method `Context.Next` of gin. -/
def Next (w : World) (fuel : Nat) (c : Context) : Except Fault Context :=
  runHandlers w fuel { c with index := c.index + 1 }

/-- The response writer at the start of a request: no header, status 200, nothing
written. -/
def freshWriter : ResponseWriter :=
  { header := [], status := 200, written := false, body := "" }

/-- The context gin hands to the chain for a request: index `-1`, a fresh writer,
an empty trace. -/
def newContext (req : Request) : Context :=
  { Request := req, Writer := freshWriter, index := -1, trace := [] }

/-- The methods `r.Any` registers a route for (gin's `anyMethods`). -/
def anyMethods : List String :=
  ["GET", "POST", "PUT", "PATCH", "HEAD", "OPTIONS", "DELETE", "CONNECT", "TRACE"]

/-- The route `r.Any("/*proxyPath", ...)` of `main`: it matches a request whose
method is one of `anyMethods` and whose URL path begins with `/`. A request it
does not match (a `CONNECT host:port` in authority form, whose path is empty)
never reaches the route closure. -/
def routeMatches (req : Request) : Bool :=
  anyMethods.contains req.Method && (req.URL.Path.data.head? == some '/')

/-- The dispatcher on a request the router hands to the chain of `main`
(`ForwardMid`, then the route closure), with as much fuel as the chain has
handlers. It is the run of the program for the requests `routeMatches` holds
of; what gin answers to any other request, and the `Logger` and `Recovery`
handlers `gin.Default()` puts around the chain (`Recovery` answers a panic
with status 500), are not part of the model. -/
def ServeHTTP (w : World) (req : Request) : Except Fault Context :=
  Next w (handlers w).length (newContext req)

/-! ## Sample inputs -/

/-- The value of gin's `Context.ClientIP` under `gin.Default()` (every peer a
trusted proxy; the headers read are `X-Forwarded-For`, then `X-Real-Ip`) for a
request whose first value under these keys, when present, is one IP address:
that first value, and the address of the peer when neither key is present. -/
def sampleClientIP (peer : String) (r : Request) : String :=
  match r.Header.get? "X-Forwarded-For" with
  | some (v :: _) => v
  | _ =>
    match r.Header.get? "X-Real-Ip" with
    | some (v :: _) => v
    | _ => peer

/-- A world whose probe succeeds, whose round trips answer 200 with one header,
and whose peer address is `198.51.100.9`. -/
def reachableWorld : World :=
  { RoundTrip := fun r =>
      .ok { StatusCode := 200, Header := [("Content-Type", ["application/json"])],
            Body := r.URL.Path },
    DialTimeout := fun _ => .ok (),
    ClientIP := sampleClientIP "198.51.100.9" }

/-- A world whose probe fails. -/
def unreachableWorld : World :=
  { RoundTrip := fun _ => .error "dial tcp 203.0.113.7:2096: i/o timeout",
    DialTimeout := fun _ => .error "dial tcp 203.0.113.7:2096: i/o timeout",
    ClientIP := sampleClientIP "198.51.100.9" }

/-- A request with the given method, host, path and header map, and query `x=1`. -/
def sampleRequest (method host path : String) (h : Header) : Request :=
  { Method := method,
    URL := { Scheme := "", Host := "", Path := path, RawQuery := "x=1" },
    Header := h, Host := host, Body := "" }

/-- The request `CONNECT / HTTP/1.0` without a `Host` header: path `/`, an empty
`Host`, an empty URL host and no header. -/
def connectNoHost : Request := sampleRequest "CONNECT" "" "/" []

/-- A `GET` request that already carries two `X-Forwarded-For` values; for it
`Context.ClientIP` is the first of them. -/
def forwardedRequest : Request :=
  sampleRequest "GET" "gw.example" "/foo"
    [("Accept", ["*/*"]), ("X-Forwarded-For", ["192.0.2.1", "192.0.2.2"])]

/-! ## Lemmas on header maps -/

theorem get?_put (h : Header) (k k' : String) (vv : List String) :
    (h.put k vv).get? k' = if k = k' then some vv else h.get? k' := by
  induction h with
  | nil => simp [Header.put, Header.get?]
  | cons e t ih =>
    obtain ⟨k0, vv0⟩ := e
    by_cases h0 : k0 = k
    · subst h0
      by_cases h1 : k0 = k' <;> simp [Header.put, Header.get?, h1]
    · by_cases h1 : k0 = k'
      · subst h1
        simp [Header.put, Header.get?, h0, Ne.symm h0]
      · simp [Header.put, Header.get?, h0, h1, ih]

theorem values_put (h : Header) (k k' : String) (vv : List String) :
    (h.put k vv).values k' = if k = k' then vv else h.values k' := by
  unfold Header.values
  rw [get?_put]
  split <;> simp

theorem get?_Set (h : Header) (key value k : String) :
    (h.Set key value).get? k
      = if CanonicalMIMEHeaderKey key = k then some [value] else h.get? k := by
  simp [Header.Set, get?_put]

theorem get?_Add_of_ne (h : Header) (key value k : String)
    (hk : CanonicalMIMEHeaderKey key ≠ k) :
    (h.Add key value).get? k = h.get? k := by
  simp [Header.Add, get?_put, hk]

theorem values_Add (h : Header) (key value k : String) :
    (h.Add key value).values k
      = if CanonicalMIMEHeaderKey key = k then h.values k ++ [value] else h.values k := by
  simp only [Header.Add, values_put]
  split
  · next hk => rw [hk]
  · rfl

/-- All values of one entry added under its key. -/
theorem values_foldl_Add (vv : List String) (d : Header) (key k : String) :
    (vv.foldl (fun d v => d.Add key v) d).values k
      = if CanonicalMIMEHeaderKey key = k then d.values k ++ vv else d.values k := by
  induction vv generalizing d with
  | nil => simp
  | cons v t ih =>
    simp only [List.foldl_cons, ih, values_Add]
    split <;> simp

theorem get?_foldl_Add_of_ne (vv : List String) (d : Header) (key k : String)
    (hk : CanonicalMIMEHeaderKey key ≠ k) :
    (vv.foldl (fun d v => d.Add key v) d).get? k = d.get? k := by
  induction vv generalizing d with
  | nil => simp
  | cons v t ih => simp only [List.foldl_cons, ih, get?_Add_of_ne _ _ _ _ hk]

theorem get?_eq_none_of_not_mem (h : Header) (k : String)
    (hk : k ∉ h.map Prod.fst) : h.get? k = none := by
  induction h with
  | nil => rfl
  | cons e t ih =>
    obtain ⟨k0, vv0⟩ := e
    simp only [List.map_cons, List.mem_cons, not_or] at hk
    simp [Header.get?, Ne.symm hk.1, ih hk.2]

theorem copyHeader_cons (dst : Header) (e : String × List String) (t : Header) :
    copyHeader dst (e :: t)
      = copyHeader (e.2.foldl (fun d v => d.Add e.1 v) dst) t := by
  simp [copyHeader]

theorem values_copyHeader (src : Header) (dst : Header) (k : String)
    (hkeys : (src.map Prod.fst).Nodup)
    (hcanon : ∀ kv ∈ src, CanonicalMIMEHeaderKey kv.1 = kv.1) :
    (copyHeader dst src).values k = dst.values k ++ src.values k := by
  induction src generalizing dst with
  | nil => simp [copyHeader, Header.values, Header.get?]
  | cons e t ih =>
    obtain ⟨k0, vv0⟩ := e
    have hc0 : CanonicalMIMEHeaderKey k0 = k0 := hcanon (k0, vv0) (List.mem_cons_self _ _)
    have hct : ∀ kv ∈ t, CanonicalMIMEHeaderKey kv.1 = kv.1 :=
      fun kv hkv => hcanon kv (List.mem_cons_of_mem _ hkv)
    simp only [List.map_cons, List.nodup_cons] at hkeys
    rw [copyHeader_cons, ih _ hkeys.2 hct, values_foldl_Add, hc0]
    by_cases h0 : k0 = k
    · subst h0
      have : Header.get? t k0 = none := get?_eq_none_of_not_mem t k0 hkeys.1
      simp [Header.values, Header.get?, this]
    · simp [Header.values, Header.get?, h0]

theorem get?_copyHeader_of_absent (src : Header) (dst : Header) (k : String)
    (hcanon : ∀ kv ∈ src, CanonicalMIMEHeaderKey kv.1 = kv.1)
    (hk : src.get? k = none) :
    (copyHeader dst src).get? k = dst.get? k := by
  induction src generalizing dst with
  | nil => simp [copyHeader]
  | cons e t ih =>
    obtain ⟨k0, vv0⟩ := e
    have hc0 : CanonicalMIMEHeaderKey k0 = k0 := hcanon (k0, vv0) (List.mem_cons_self _ _)
    have hct : ∀ kv ∈ t, CanonicalMIMEHeaderKey kv.1 = kv.1 :=
      fun kv hkv => hcanon kv (List.mem_cons_of_mem _ hkv)
    by_cases h0 : k0 = k
    · simp [Header.get?, h0] at hk
    · simp only [Header.get?, h0, if_false] at hk
      rw [copyHeader_cons, ih _ hct hk]
      exact get?_foldl_Add_of_ne _ _ _ _ (by rw [hc0]; exact h0)

/-! ## Lemmas on the handler chain -/

theorem ServeHTTP_unfold (w : World) (req : Request) :
    ServeHTTP w req =
      match ForwardMid w (fun c' => runHandlers w 1 { c' with index := c'.index + 1 })
          { newContext req with index := 0 } with
      | .error e => .error e
      | .ok c1 => runHandlers w 1 { c1 with index := c1.index + 1 } := by
  simp [ServeHTTP, Next, handlers, newContext, runHandlers]

theorem runHandlers_past_end (w : World) (fuel : Nat) (c : Context) (hi : 2 ≤ c.index) :
    runHandlers w fuel c = .ok c := by
  have : ¬ (0 ≤ c.index ∧ c.index < ((handlers w).length : Int)) := by
    simp [handlers]; omega
  cases fuel <;> simp [runHandlers, this]

theorem HandleConnect_index (c : Context) : (HandleConnect c).index = c.index := by
  simp only [HandleConnect]
  split_ifs <;> rfl

theorem proxyServeHTTP_index (w : World) (c : Context) :
    (proxyServeHTTP w c).index = c.index := by
  simp only [proxyServeHTTP]
  split <;> rfl

theorem Reverse_index (w : World) (c : Context) : (Reverse w c).index = c.index := by
  simp only [Reverse]
  split
  · rfl
  · rw [proxyServeHTTP_index]; rfl

theorem runHandlers_route_connect (w : World) (c : Context) (hi : c.index = 1)
    (hm : c.Request.Method = "CONNECT") :
    runHandlers w 1 c = .ok { HandleConnect c with index := 2 } := by
  have hr : (HandleConnect c).index = 1 := by rw [HandleConnect_index, hi]
  simp [runHandlers, handlers, hi, proxyPath, hm, hr]

theorem runHandlers_route_other (w : World) (c : Context) (hi : c.index = 1)
    (hm : c.Request.Method ≠ "CONNECT") :
    runHandlers w 1 c = .ok { Reverse w c with index := 2 } := by
  have hr : (Reverse w c).index = 1 := by rw [Reverse_index, hi]
  simp [runHandlers, handlers, hi, proxyPath, hm, hr]

/-- The marker does not trigger and the index `v[0]` is in range: `ForwardMid`
is `c.Next()` on the context as received. -/
theorem ForwardMid_pass (w : World) (next : Context → Except Fault Context) (c : Context)
    (hmark : ∀ rest, c.Request.Header.get? "Forward" ≠ some ("ok" :: rest))
    (hne : c.Request.Header.get? "Forward" ≠ some []) :
    ForwardMid w next c = next c := by
  unfold ForwardMid
  cases hv : c.Request.Header.get? "Forward" with
  | none => rfl
  | some v =>
    cases v with
    | nil => exact absurd hv hne
    | cons v0 rest =>
      have : v0 ≠ "ok" := fun h => hmark rest (by rw [hv, h])
      simp [this]

/-- The marker triggers: `ForwardMid` does one round trip, writes, and aborts,
whatever `c.Next()` would do. -/
theorem ForwardMid_marker (w : World) (next : Context → Except Fault Context) (c : Context)
    (rest : List String) (hv : c.Request.Header.get? "Forward" = some ("ok" :: rest)) :
    ∃ wr, ForwardMid w next c
      = .ok { Request := c.Request, Writer := wr, index := abortIndex,
              trace := c.trace ++ [.roundTrip c.Request] } := by
  unfold ForwardMid
  rw [hv]
  simp only [if_true, Context.log]
  split <;> exact ⟨_, rfl⟩

theorem ForwardMid_panic (w : World) (next : Context → Except Fault Context) (c : Context)
    (hv : c.Request.Header.get? "Forward" = some []) :
    ForwardMid w next c = .error .indexOutOfRange := by
  unfold ForwardMid
  rw [hv]

theorem ServeHTTP_marker (w : World) (req : Request) (rest : List String)
    (hv : req.Header.get? "Forward" = some ("ok" :: rest)) :
    ∃ wr, ServeHTTP w req
      = .ok { Request := req, Writer := wr, index := abortIndex + 1,
              trace := [.roundTrip req] } := by
  obtain ⟨wr, h⟩ := ForwardMid_marker w
    (fun c' => runHandlers w 1 { c' with index := c'.index + 1 })
    { newContext req with index := 0 } rest hv
  refine ⟨wr, ?_⟩
  rw [ServeHTTP_unfold, h]
  simp only
  rw [runHandlers_past_end _ _ _ (by simp [abortIndex])]
  simp [newContext]

theorem ServeHTTP_panic (w : World) (req : Request)
    (hv : req.Header.get? "Forward" = some []) :
    ServeHTTP w req = .error .indexOutOfRange := by
  rw [ServeHTTP_unfold, ForwardMid_panic _ _ _ hv]

theorem ServeHTTP_connect (w : World) (req : Request)
    (hmark : ∀ rest, req.Header.get? "Forward" ≠ some ("ok" :: rest))
    (hne : req.Header.get? "Forward" ≠ some [])
    (hm : req.Method = "CONNECT") :
    ServeHTTP w req
      = .ok { HandleConnect { newContext req with index := 1 } with index := 3 } := by
  rw [ServeHTTP_unfold, ForwardMid_pass _ _ _ hmark hne]
  simp only
  rw [runHandlers_route_connect _ _ rfl hm]
  simp only
  rw [runHandlers_past_end _ _ _ (by simp)]
  simp

theorem ServeHTTP_other (w : World) (req : Request)
    (hmark : ∀ rest, req.Header.get? "Forward" ≠ some ("ok" :: rest))
    (hne : req.Header.get? "Forward" ≠ some [])
    (hm : req.Method ≠ "CONNECT") :
    ServeHTTP w req
      = .ok { Reverse w { newContext req with index := 1 } with index := 3 } := by
  rw [ServeHTTP_unfold, ForwardMid_pass _ _ _ hmark hne]
  simp only
  rw [runHandlers_route_other _ _ rfl hm]
  simp only
  rw [runHandlers_past_end _ _ _ (by simp)]
  simp

/-- A request on which the marker does not trigger and `v[0]` is in range ends
with the chain not aborted and without a direct round trip. -/
theorem ServeHTTP_pass (w : World) (req : Request)
    (hmark : ∀ rest, req.Header.get? "Forward" ≠ some ("ok" :: rest))
    (hne : req.Header.get? "Forward" ≠ some []) :
    ∃ c, ServeHTTP w req = .ok c ∧ c.IsAborted = false ∧
      c.trace.any Event.isRoundTrip = false := by
  by_cases hm : req.Method = "CONNECT"
  · refine ⟨_, ServeHTTP_connect w req hmark hne hm, ?_, ?_⟩
    · simp [Context.IsAborted, abortIndex]
    · simp only [HandleConnect, newContext, Context.String, Context.log]
      split_ifs <;> simp [Event.isRoundTrip]
  · refine ⟨_, ServeHTTP_other w req hmark hne hm, ?_, ?_⟩
    · simp [Context.IsAborted, abortIndex]
    · simp only [Reverse, proxyServeHTTP, newContext, Context.String, Context.log]
      split
      · simp [Event.isRoundTrip]
      · split <;> simp [Event.isRoundTrip]

/-! ## Lemmas on the rewrite and the error classifier -/

theorem canonical_forwarded_for :
    CanonicalMIMEHeaderKey "X-Forwarded-For" = "X-Forwarded-For" := by decide

theorem canonical_forwarded_proto :
    CanonicalMIMEHeaderKey "X-Forwarded-Proto" = "X-Forwarded-Proto" := by decide

theorem canonical_forwarded_host :
    CanonicalMIMEHeaderKey "X-Forwarded-Host" = "X-Forwarded-Host" := by decide

/-- The header map the `Director` leaves: three `Set` calls on the inbound map. -/
theorem Director_Header (w : World) (c : Context) (req : Request) :
    (Director w c req).Header
      = ((c.Request.Header.Set "X-Forwarded-For" (w.ClientIP c.Request)).Set
          "X-Forwarded-Proto" "https").Set "X-Forwarded-Host" c.Request.Host := by
  simp only [Director]
  split_ifs <;> rfl

theorem get?_Director_Header (w : World) (c : Context) (req : Request) (k : String) :
    (Director w c req).Header.get? k
      = if k = "X-Forwarded-Host" then some [c.Request.Host]
        else if k = "X-Forwarded-Proto" then some ["https"]
        else if k = "X-Forwarded-For" then some [w.ClientIP c.Request]
        else c.Request.Header.get? k := by
  rw [Director_Header]
  simp only [get?_Set, canonical_forwarded_for, canonical_forwarded_proto,
    canonical_forwarded_host, eq_comm]

/-- With nothing written yet, `WriteHeader` leaves the positive status it is
given. -/
theorem WriteHeader_status (wr : ResponseWriter) (code : Nat)
    (hw : wr.written = false) (hc : 0 < code) : (wr.WriteHeader code).status = code := by
  unfold ResponseWriter.WriteHeader
  by_cases h : wr.status = code
  · simp [h]
  · simp [h, hc, hw]

theorem httpError_status (wr : ResponseWriter) (msg : String) (code : Nat)
    (hw : wr.written = false) (hc : 0 < code) : (httpError wr msg code).status = code := by
  simp only [httpError, ResponseWriter.Write]
  exact WriteHeader_status wr code hw hc

theorem WriteHeader_body (wr : ResponseWriter) (code : Nat) :
    (wr.WriteHeader code).body = wr.body := by
  unfold ResponseWriter.WriteHeader
  split_ifs <;> rfl

theorem httpError_body (wr : ResponseWriter) (msg : String) (code : Nat) :
    (httpError wr msg code).body = wr.body ++ (msg ++ "\n") := by
  simp only [httpError, ResponseWriter.Write, WriteHeader_body]

theorem HandleConnect_trace (c : Context) :
    (HandleConnect c).trace
      = c.trace ++ [.handleConnect (if c.Request.Host = "" then c.Request.URL.Host
          else c.Request.Host)] := by
  simp only [HandleConnect, Context.String, Context.log]
  split_ifs <;> rfl

theorem Reverse_of_dial_error (w : World) (c : Context) (e : String)
    (hd : w.DialTimeout "bdtunnel.com:2096" = .error e) :
    Reverse w c
      = (c.log (.dial remote.Host)).String StatusBadGateway
          "Target server is currently unavailable" := by
  simp [Reverse, remote, hd]

theorem Reverse_trace_of_dial_ok (w : World) (c : Context) (u : Unit)
    (hd : w.DialTimeout "bdtunnel.com:2096" = .ok u) :
    (Reverse w c).trace
      = c.trace ++ [.dial remote.Host, .director (Director w c c.Request),
          .relay (Director w c c.Request)] := by
  simp only [Reverse, remote, hd, proxyServeHTTP, Context.log]
  split <;> simp [Director]

/-! ## Claims -/

/-- C9: `copyHeader` keeps order and multiplicity per key. For a source map
with distinct, canonical keys and every key `k`, the value list of `k` in the
destination after the copy is the value list before, followed by the value
list of `k` in the source; a copy into the empty map has the value lists of
the source; a key absent from the source keeps its entry as it was. -/
theorem copyHeader_appends_per_key (dst src : Header)
    (hkeys : (src.map Prod.fst).Nodup)
    (hcanon : ∀ kv ∈ src, CanonicalMIMEHeaderKey kv.1 = kv.1) :
    (∀ k, (copyHeader dst src).values k = dst.values k ++ src.values k) ∧
    (∀ k, (copyHeader [] src).values k = src.values k) ∧
    (∀ k, src.get? k = none → (copyHeader dst src).get? k = dst.get? k) := by
  refine ⟨fun k => values_copyHeader src dst k hkeys hcanon, fun k => ?_,
    fun k hk => get?_copyHeader_of_absent src dst k hcanon hk⟩
  rw [values_copyHeader src [] k hkeys hcanon]
  simp [Header.values, Header.get?]

/-- C9, at a destination that holds `A: 1` and a source with a repeated value. -/
theorem copyHeader_appends_per_key_witness :
    ([("A", ["2", "2"]), ("B", ["3"])].map Prod.fst).Nodup ∧
    (∀ kv ∈ [("A", ["2", "2"]), ("B", ["3"])], CanonicalMIMEHeaderKey kv.1 = kv.1) ∧
    (∀ k, (copyHeader [("A", ["1"]), ("C", ["0"])] [("A", ["2", "2"]), ("B", ["3"])]).values k
        = Header.values [("A", ["1"]), ("C", ["0"])] k
          ++ Header.values [("A", ["2", "2"]), ("B", ["3"])] k) :=
  ⟨by decide, by decide,
    (copyHeader_appends_per_key [("A", ["1"]), ("C", ["0"])]
      [("A", ["2", "2"]), ("B", ["3"])] (by decide) (by decide)).1⟩

/-- C1, as stated, fails: the request `CONNECT /` without the marker header,
with an empty `Host` and an empty URL host, is matched by the catch-all route
and answered with status 400, not 405. -/
theorem connect_without_host_is_400 :
    connectNoHost.Method = "CONNECT" ∧
    routeMatches connectNoHost = true ∧
    connectNoHost.Header.get? "Forward" = none ∧
    connectNoHost.Host = "" ∧ connectNoHost.URL.Host = "" ∧
    (ServeHTTP reachableWorld connectNoHost).toOption.map (fun c => c.Writer.status)
      = some 400 := by
  decide

/-- C1, amended: a `CONNECT` request whose URL path begins with `/` is matched
by the catch-all route; when it does not trigger the marker header (and its
`Forward` key, when present, has a first value) it is answered by
`HandleConnect` alone, with status 405 when the request's `Host` or the URL's
host is not empty, and with status 400 when both are empty. -/
theorem connect_status (w : World) (req : Request)
    (hm : req.Method = "CONNECT")
    (hpath : req.URL.Path.data.head? = some '/')
    (hmark : ∀ rest, req.Header.get? "Forward" ≠ some ("ok" :: rest))
    (hne : req.Header.get? "Forward" ≠ some []) :
    routeMatches req = true ∧
    ∃ c, ServeHTTP w req = .ok c ∧
      c.Writer.status = (if req.Host = "" ∧ req.URL.Host = "" then 400 else 405) ∧
      c.trace = [.handleConnect (if req.Host = "" then req.URL.Host else req.Host)] := by
  refine ⟨?_, _, ServeHTTP_connect w req hmark hne hm, ?_, ?_⟩
  · simp [routeMatches, anyMethods, hm, hpath]
  · by_cases h1 : req.Host = "" <;> by_cases h2 : req.URL.Host = "" <;>
      simp [HandleConnect, newContext, freshWriter, Context.String, Context.log,
        ResponseWriter.WriteHeader, ResponseWriter.Write, StatusBadRequest,
        StatusMethodNotAllowed, h1, h2]
  · by_cases h1 : req.Host = "" <;> by_cases h2 : req.URL.Host = "" <;>
      simp [HandleConnect, newContext, Context.String, Context.log, h1, h2]

/-- C1, amended, at the request `CONNECT /foo` with `Host: example.org:443`. -/
theorem connect_status_witness :
    (sampleRequest "CONNECT" "example.org:443" "/foo" []).Method = "CONNECT" ∧
    (sampleRequest "CONNECT" "example.org:443" "/foo" []).URL.Path.data.head? = some '/' ∧
    routeMatches (sampleRequest "CONNECT" "example.org:443" "/foo" []) = true ∧
    ∃ c, ServeHTTP unreachableWorld (sampleRequest "CONNECT" "example.org:443" "/foo" [])
        = .ok c ∧
      c.Writer.status = 405 ∧ c.trace = [.handleConnect "example.org:443"] :=
  ⟨by decide, by decide,
    connect_status unreachableWorld (sampleRequest "CONNECT" "example.org:443" "/foo" [])
      (by decide) (by decide) (fun rest h => by simp [sampleRequest, Header.get?] at h)
      (by decide)⟩

/-- C2: a request whose `Forward` header has first value `ok` runs the
pass-through forwarder only, whatever its method: the chain is aborted, the
one event is the round trip of the request as received, so `HandleConnect`,
the probe, the `Director` and the relay do not run, and the request is left
as it was. -/
theorem marker_runs_forwarder_only (w : World) (req : Request) (rest : List String)
    (hv : req.Header.get? "Forward" = some ("ok" :: rest)) :
    ∃ c, ServeHTTP w req = .ok c ∧ c.IsAborted = true ∧
      c.trace = [.roundTrip req] ∧ c.Request = req ∧
      c.trace.any Event.isHandleConnect = false ∧ c.trace.any Event.isDial = false ∧
      c.trace.any Event.isDirector = false ∧ c.trace.any Event.isRelay = false := by
  obtain ⟨wr, h⟩ := ServeHTTP_marker w req rest hv
  refine ⟨_, h, ?_⟩
  simp [Context.IsAborted, abortIndex, Event.isHandleConnect, Event.isDial,
    Event.isDirector, Event.isRelay]

/-- C2, at a `CONNECT` request with `Forward: ok`. -/
theorem marker_runs_forwarder_only_witness :
    (sampleRequest "CONNECT" "example.org:443" "" [("Forward", ["ok"])]).Header.get? "Forward"
      = some ("ok" :: []) ∧
    ∃ c, ServeHTTP reachableWorld
        (sampleRequest "CONNECT" "example.org:443" "" [("Forward", ["ok"])]) = .ok c ∧
      c.IsAborted = true ∧
      c.trace = [.roundTrip (sampleRequest "CONNECT" "example.org:443" "" [("Forward", ["ok"])])] ∧
      c.Request = sampleRequest "CONNECT" "example.org:443" "" [("Forward", ["ok"])] ∧
      c.trace.any Event.isHandleConnect = false ∧ c.trace.any Event.isDial = false ∧
      c.trace.any Event.isDirector = false ∧ c.trace.any Event.isRelay = false :=
  ⟨by decide,
    marker_runs_forwarder_only reachableWorld
      (sampleRequest "CONNECT" "example.org:443" "" [("Forward", ["ok"])]) [] (by decide)⟩

/-- C3: the pass-through forwarder signals "handled" (the chain ends aborted)
exactly when the key `Forward` is present and its first value is the string
`ok`. Values after the first play no part: `["ok", x]` triggers for every `x`;
`[x, "ok"]` with `x` other than `ok`, and `["OK"]`, do not trigger, and then
`ForwardMid` is `c.Next()` on the context as received. -/
theorem forward_handled_iff (w : World) (req : Request) :
    ((∃ c, ServeHTTP w req = .ok c ∧ c.IsAborted = true)
      ↔ ∃ rest, req.Header.get? "Forward" = some ("ok" :: rest)) ∧
    (∀ x, req.Header.get? "Forward" = some ["ok", x] →
      ∃ c, ServeHTTP w req = .ok c ∧ c.IsAborted = true) ∧
    (∀ x, x ≠ "ok" → req.Header.get? "Forward" = some [x, "ok"] →
      ∃ c, ServeHTTP w req = .ok c ∧ c.IsAborted = false ∧
        c.trace.any Event.isRoundTrip = false) ∧
    (req.Header.get? "Forward" = some ["OK"] →
      ∃ c, ServeHTTP w req = .ok c ∧ c.IsAborted = false ∧
        c.trace.any Event.isRoundTrip = false) ∧
    (∀ next c, (∀ rest, c.Request.Header.get? "Forward" ≠ some ("ok" :: rest)) →
      c.Request.Header.get? "Forward" ≠ some [] → ForwardMid w next c = next c) := by
  have hyes : ∀ rest, req.Header.get? "Forward" = some ("ok" :: rest) →
      ∃ c, ServeHTTP w req = .ok c ∧ c.IsAborted = true := by
    intro rest hv
    obtain ⟨wr, h⟩ := ServeHTTP_marker w req rest hv
    exact ⟨_, h, by simp [Context.IsAborted, abortIndex]⟩
  refine ⟨⟨?_, fun ⟨rest, hv⟩ => hyes rest hv⟩, fun x hv => hyes [x] hv, ?_, ?_, ?_⟩
  · rintro ⟨c, hc, ha⟩
    by_contra hno
    have hmark : ∀ rest, req.Header.get? "Forward" ≠ some ("ok" :: rest) :=
      fun rest h => hno ⟨rest, h⟩
    by_cases hne : req.Header.get? "Forward" = some []
    · rw [ServeHTTP_panic w req hne] at hc
      cases hc
    · obtain ⟨c', hc', ha', _⟩ := ServeHTTP_pass w req hmark hne
      rw [hc] at hc'
      cases hc'
      rw [ha] at ha'
      cases ha'
  · intro x hx hv
    refine ServeHTTP_pass w req (fun rest h => ?_) (by rw [hv]; simp)
    rw [hv] at h
    simp at h
    exact hx h.1
  · intro hv
    refine ServeHTTP_pass w req (fun rest h => ?_) (by rw [hv]; simp)
    rw [hv] at h
    simp at h
  · intro next c hmark hne
    exact ForwardMid_pass w next c hmark hne

/-- C3, at the header `Forward: ok, no`. -/
theorem forward_handled_iff_witness :
    (sampleRequest "GET" "gw.example" "/" [("Forward", ["ok", "no"])]).Header.get? "Forward"
      = some ["ok", "no"] ∧
    ∃ c, ServeHTTP reachableWorld
        (sampleRequest "GET" "gw.example" "/" [("Forward", ["ok", "no"])]) = .ok c ∧
      c.IsAborted = true :=
  ⟨by decide,
    (forward_handled_iff reachableWorld
      (sampleRequest "GET" "gw.example" "/" [("Forward", ["ok", "no"])])).2.1 "no"
      (by decide)⟩

/-- C10: the index `v[0]` in `ForwardMid` has no length check. The dispatcher
returns exactly when the key `Forward`, if present, has a non-empty value
list; when the key is present with an empty value list the index is out of
range, for every method and world, and no dispatch path completes. -/
theorem forward_index_in_range_iff (w : World) (req : Request) :
    ((∃ c, ServeHTTP w req = .ok c) ↔ req.Header.get? "Forward" ≠ some []) ∧
    (ServeHTTP w req = .error .indexOutOfRange ↔ req.Header.get? "Forward" = some []) ∧
    (∀ next c, c.Request.Header.get? "Forward" = some [] →
      ForwardMid w next c = .error .indexOutOfRange) := by
  have hok : req.Header.get? "Forward" ≠ some [] → ∃ c, ServeHTTP w req = .ok c := by
    intro hne
    by_cases hmark : ∃ rest, req.Header.get? "Forward" = some ("ok" :: rest)
    · obtain ⟨rest, hv⟩ := hmark
      obtain ⟨wr, h⟩ := ServeHTTP_marker w req rest hv
      exact ⟨_, h⟩
    · obtain ⟨c, hc, _⟩ := ServeHTTP_pass w req (fun rest h => hmark ⟨rest, h⟩) hne
      exact ⟨c, hc⟩
  refine ⟨⟨?_, hok⟩, ⟨?_, ServeHTTP_panic w req⟩, fun next c hv => ForwardMid_panic w next c hv⟩
  · rintro ⟨c, hc⟩ hv
    rw [ServeHTTP_panic w req hv] at hc
    cases hc
  · intro he
    by_contra hne
    obtain ⟨c, hc⟩ := hok hne
    rw [he] at hc
    cases hc

/-- C10, at a request whose `Forward` key has an empty value list. -/
theorem forward_index_in_range_iff_witness :
    (sampleRequest "GET" "gw.example" "/" [("Forward", [])]).Header.get? "Forward" = some [] ∧
    ServeHTTP reachableWorld (sampleRequest "GET" "gw.example" "/" [("Forward", [])])
      = .error .indexOutOfRange :=
  ⟨by decide,
    (forward_index_in_range_iff reachableWorld
      (sampleRequest "GET" "gw.example" "/" [("Forward", [])])).2.1.2 (by decide)⟩

/-- C4: the `Director` sends every request to host `bdtunnel.com:2096` with
scheme `https`; the outbound path and query are `/sub/imzami` and
`format=json` when the inbound path is empty or `/`, whatever the inbound
query, and the inbound path and query in every other case. The request the
proxy relays is the one the `Director` produced from the inbound request. -/
theorem director_rewrites_target (w : World) (c : Context) (req : Request) :
    (Director w c req).Host = "bdtunnel.com:2096" ∧
    (Director w c req).URL.Host = "bdtunnel.com:2096" ∧
    (Director w c req).URL.Scheme = "https" ∧
    ((Director w c req).URL.Path, (Director w c req).URL.RawQuery)
      = (if c.Request.URL.Path = "" ∨ c.Request.URL.Path = "/"
          then ("/sub/imzami", "format=json")
          else (c.Request.URL.Path, c.Request.URL.RawQuery)) ∧
    (proxyServeHTTP w c).trace
      = c.trace ++ [.director (Director w c c.Request), .relay (Director w c c.Request)] := by
  refine ⟨?_, ?_, ?_, ?_, ?_⟩
  · simp only [Director]; split_ifs <;> rfl
  · simp only [Director]; split_ifs <;> rfl
  · simp only [Director]; split_ifs <;> rfl
  · by_cases h1 : c.Request.URL.Path = "/"
    · simp [Director, h1]
    · by_cases h2 : c.Request.URL.Path = ""
      · simp [Director, h2]
      · simp [Director, h1, h2]
  · simp only [proxyServeHTTP, Context.log]
    split <;> simp

/-- C5: after the `Director`, each of `X-Forwarded-For`, `X-Forwarded-Proto`
and `X-Forwarded-Host` holds exactly one value (the client address, `https`
and the inbound host), whatever the inbound header map held under these
keys. -/
theorem forwarded_headers_single (w : World) (c : Context) (req : Request) :
    (Director w c req).Header.get? "X-Forwarded-For" = some [w.ClientIP c.Request] ∧
    (Director w c req).Header.get? "X-Forwarded-Proto" = some ["https"] ∧
    (Director w c req).Header.get? "X-Forwarded-Host" = some [c.Request.Host] := by
  refine ⟨?_, ?_, ?_⟩ <;> rw [get?_Director_Header] <;> simp

/-- C6, as stated, fails: the inbound request holds `192.0.2.1` and `192.0.2.2`
under `X-Forwarded-For`, the client address is the first of them, and after
the `Director` the key holds that address alone: `192.0.2.2` is gone. -/
theorem prior_forwarded_value_dropped :
    "192.0.2.2" ∈ forwardedRequest.Header.values "X-Forwarded-For" ∧
    reachableWorld.ClientIP forwardedRequest = "192.0.2.1" ∧
    "192.0.2.2" ∉ (Director reachableWorld (newContext forwardedRequest)
        forwardedRequest).Header.values "X-Forwarded-For" ∧
    (Director reachableWorld (newContext forwardedRequest)
        forwardedRequest).Header.values "X-Forwarded-For" = ["192.0.2.1"] := by
  decide

/-- C6, amended: the transparency headers replace what was there. After the
`Director`, a value is held under `X-Forwarded-For`, `X-Forwarded-Proto` or
`X-Forwarded-Host` exactly when it is the value the gateway sets (the client
address, `https`, the inbound host), and every other key keeps the value
list the inbound header map had. -/
theorem forwarded_headers_replace (w : World) (c : Context) (req : Request) :
    (∀ v, v ∈ (Director w c req).Header.values "X-Forwarded-For" ↔ v = w.ClientIP c.Request) ∧
    (∀ v, v ∈ (Director w c req).Header.values "X-Forwarded-Proto" ↔ v = "https") ∧
    (∀ v, v ∈ (Director w c req).Header.values "X-Forwarded-Host" ↔ v = c.Request.Host) ∧
    (∀ k, k ≠ "X-Forwarded-For" → k ≠ "X-Forwarded-Proto" → k ≠ "X-Forwarded-Host" →
      (Director w c req).Header.get? k = c.Request.Header.get? k) := by
  refine ⟨fun v => ?_, fun v => ?_, fun v => ?_, fun k h1 h2 h3 => ?_⟩
  · simp [Header.values, get?_Director_Header]
  · simp [Header.values, get?_Director_Header]
  · simp [Header.values, get?_Director_Header]
  · simp [get?_Director_Header, h1, h2, h3]

/-- C6, amended, at a request that carries two `X-Forwarded-For` values: the key
`Accept` keeps its value list. -/
theorem forwarded_headers_replace_witness :
    "Accept" ≠ "X-Forwarded-For" ∧
    (Director reachableWorld (newContext forwardedRequest) forwardedRequest).Header.get? "Accept"
      = (newContext forwardedRequest).Request.Header.get? "Accept" :=
  ⟨by decide,
    (forwarded_headers_replace reachableWorld (newContext forwardedRequest)
      forwardedRequest).2.2.2 "Accept" (by decide) (by decide) (by decide)⟩

/-- C7, as stated, fails: an error text that holds `timeout` and also
`connection refused` is classified as refused, status 502. -/
theorem refused_timeout_is_502 :
    stringsContains "connect: connection refused (i/o timeout)" "timeout" = true ∧
    (ErrorHandler freshWriter "connect: connection refused (i/o timeout)").status = 502 ∧
    (ErrorHandler freshWriter "connect: connection refused (i/o timeout)").body
      = "Target server connection refused\n" := by
  decide

/-- C7, amended: on a writer with nothing written, an error text that holds
`connection refused` gets status 502 whether or not it holds `timeout`; an
error text that holds `timeout` and not `connection refused` gets status 504
and the body `Target server timeout`. -/
theorem timeout_classified_504 (wr : ResponseWriter) (err : String)
    (hw : wr.written = false) :
    (stringsContains err "connection refused" = true →
      (ErrorHandler wr err).status = 502) ∧
    (stringsContains err "timeout" = true →
      stringsContains err "connection refused" = false →
      (ErrorHandler wr err).status = 504 ∧
      (ErrorHandler wr err).body = wr.body ++ "Target server timeout\n") := by
  refine ⟨fun hr => ?_, fun ht hr => ⟨?_, ?_⟩⟩
  · simp only [ErrorHandler, hr, if_true]
    exact httpError_status _ _ _ hw (by decide)
  · simp only [ErrorHandler, hr, ht, if_true]
    exact httpError_status _ _ _ hw (by decide)
  · have h : ErrorHandler wr err
        = httpError wr "Target server timeout" StatusGatewayTimeout := by
      simp [ErrorHandler, hr, ht]
    rw [h, httpError_body]
    rfl

/-- C7, amended, at the error text of a dial that timed out. -/
theorem timeout_classified_504_witness :
    freshWriter.written = false ∧
    stringsContains "dial tcp 203.0.113.7:2096: i/o timeout" "timeout" = true ∧
    stringsContains "dial tcp 203.0.113.7:2096: i/o timeout" "connection refused" = false ∧
    (ErrorHandler freshWriter "dial tcp 203.0.113.7:2096: i/o timeout").status = 504 :=
  ⟨by decide, by decide, by decide,
    ((timeout_classified_504 freshWriter "dial tcp 203.0.113.7:2096: i/o timeout"
      (by decide)).2 (by decide) (by decide)).1⟩

/-- C8: for a request that reaches `Reverse` (the marker does not trigger, the
method is not `CONNECT`), a failed probe gives status 502 with the body
`Target server is currently unavailable`, and the probe is the only event:
neither the `Director` nor the relay runs. In every run of the dispatcher, a
relay in the trace means the probe succeeded and came first. -/
theorem probe_gates_relay (w : World) (req : Request) :
    (∀ e, req.Method ≠ "CONNECT" →
      (∀ rest, req.Header.get? "Forward" ≠ some ("ok" :: rest)) →
      req.Header.get? "Forward" ≠ some [] →
      w.DialTimeout "bdtunnel.com:2096" = .error e →
      ∃ c, ServeHTTP w req = .ok c ∧ c.Writer.status = 502 ∧
        c.Writer.body = "Target server is currently unavailable" ∧
        c.trace = [.dial "bdtunnel.com:2096"] ∧
        c.trace.any Event.isDirector = false ∧ c.trace.any Event.isRelay = false) ∧
    (∀ c, ServeHTTP w req = .ok c → c.trace.any Event.isRelay = true →
      w.DialTimeout "bdtunnel.com:2096" = .ok () ∧
      ∃ out, c.trace = [.dial "bdtunnel.com:2096", .director out, .relay out]) := by
  refine ⟨fun e hm hmark hne hd => ?_, fun c hc hrel => ?_⟩
  · refine ⟨_, ServeHTTP_other w req hmark hne hm, ?_⟩
    rw [Reverse_of_dial_error w _ e hd]
    simp [newContext, freshWriter, Context.String, Context.log, ResponseWriter.Write,
      ResponseWriter.WriteHeader, StatusBadGateway, remote, Event.isDirector, Event.isRelay]
  · by_cases hne : req.Header.get? "Forward" = some []
    · rw [ServeHTTP_panic w req hne] at hc
      cases hc
    · by_cases hmark : ∃ rest, req.Header.get? "Forward" = some ("ok" :: rest)
      · obtain ⟨rest, hv⟩ := hmark
        obtain ⟨wr, h⟩ := ServeHTTP_marker w req rest hv
        rw [h] at hc
        cases hc
        simp [Event.isRelay] at hrel
      · have hmark' : ∀ rest, req.Header.get? "Forward" ≠ some ("ok" :: rest) :=
          fun rest h => hmark ⟨rest, h⟩
        by_cases hm : req.Method = "CONNECT"
        · rw [ServeHTTP_connect w req hmark' hne hm] at hc
          cases hc
          simp [HandleConnect_trace, newContext, Event.isRelay] at hrel
        · rw [ServeHTTP_other w req hmark' hne hm] at hc
          cases hc
          cases hd : w.DialTimeout "bdtunnel.com:2096" with
          | error e =>
            rw [Reverse_of_dial_error w _ e hd] at hrel
            simp [newContext, Context.String, Context.log, Event.isRelay] at hrel
          | ok u =>
            refine ⟨rfl, Director w { newContext req with index := 1 } req, ?_⟩
            simp only
            rw [Reverse_trace_of_dial_ok w _ u hd]
            simp [newContext, remote]

/-- C8, at a `GET` request for `/` in a world whose probe fails. -/
theorem probe_gates_relay_witness :
    (sampleRequest "GET" "gw.example" "/" []).Method ≠ "CONNECT" ∧
    unreachableWorld.DialTimeout "bdtunnel.com:2096"
      = .error "dial tcp 203.0.113.7:2096: i/o timeout" ∧
    ∃ c, ServeHTTP unreachableWorld (sampleRequest "GET" "gw.example" "/" []) = .ok c ∧
      c.Writer.status = 502 ∧
      c.Writer.body = "Target server is currently unavailable" ∧
      c.trace = [.dial "bdtunnel.com:2096"] ∧
      c.trace.any Event.isDirector = false ∧ c.trace.any Event.isRelay = false :=
  ⟨by decide, rfl,
    (probe_gates_relay unreachableWorld (sampleRequest "GET" "gw.example" "/" [])).1
      "dial tcp 203.0.113.7:2096: i/o timeout" (by decide)
      (fun rest h => by simp [sampleRequest, Header.get?] at h) (by decide) rfl⟩

end Gateway
